import Mathlib

/-!
Verification development for the smart_tg_bot repository core:
the Ask Orchestrator (`OpenAIClient.ask`), the Thread Resolver
(`get_or_create_thread_id`), the Message Store (`GptThreadRepository`
backed by the SQLite schema of `DatabaseInitializer`), and the
Structured-Response Retry Wrapper (`ask_quiz_with_retries`).

The remote Assistants API is modelled as an abstract client: a record of
state-transition functions, one per remote operation used by `ask`.  The
orchestrator additionally emits a trace of the remote calls it makes, so
call-order and call-count properties can be stated.  Run statuses and
error codes are strings, exactly as the Python source compares them.
-/

namespace SmartTgBot

/-- Status and error information of one remote run, as observed by the
orchestrator.  `status` is a plain string ("queued", "in_progress",
"completed", "failed", or any other status the remote service may use);
`errorCode` and `errorMessage` model `run.last_error` with `getattr`
defaults of the empty string. -/
structure RunInfo where
  id : Nat
  status : String
  errorCode : String
  errorMessage : String
  deriving Repr, DecidableEq

/-- One content part of a remote message (`message.content` elements have a
`type` and, for type "text", a `text.value`). -/
structure ContentPart where
  type : String
  text : String
  deriving Repr, DecidableEq

/-- One remote message as returned by `messages.list`. -/
structure RemoteMsg where
  role : String
  content : List ContentPart
  deriving Repr, DecidableEq

/-- Trace events: the remote calls (and sleeps) `ask` performs, in order. -/
inductive Ev where
  | listRuns : Ev
  | retrieveRun : Nat → Ev
  | createMessage : String → String → Ev
  | createRun : Ev
  | listMessages : Ev
  | sleep : Nat → Ev
  deriving Repr, DecidableEq

/-- Errors `ask` raises (`OpenAIError` in the source; `RemoteServiceError`
in the specification). -/
inductive AskErr where
  | prevRunFailed : String → String → AskErr
  | runFailed : String → String → AskErr
  deriving Repr, DecidableEq

/-- Abstract remote conversation client: one state-transition function per
remote operation used by `OpenAIClient.ask`.  `listRuns` models
`runs.list(limit=1)` (the latest run, if any), `retrieveRun` models
`runs.retrieve`, `createMessage` models `messages.create`, `createRun`
models `runs.create`, and `listMessages` models `messages.list` (whose
result is ordered newest-first by the remote API). -/
structure Client (σ : Type) where
  listRuns : σ → Option RunInfo × σ
  retrieveRun : Nat → σ → RunInfo × σ
  createMessage : String → String → σ → σ
  createRun : σ → RunInfo × σ
  listMessages : σ → List RemoteMsg × σ

/-- Polling loop of `ask`: while the run status is "queued" or
"in_progress", sleep one second and re-retrieve the run.  `fuel` bounds
the number of polls; `none` models the source looping beyond the bound. -/
def pollRun {σ : Type} (c : Client σ) (fuel : Nat) (r : RunInfo) (s : σ)
    (tr : List Ev) : Option (RunInfo × σ × List Ev) :=
  if r.status = "queued" ∨ r.status = "in_progress" then
    match fuel with
    | 0 => none
    | fuel' + 1 =>
      let p := c.retrieveRun r.id s
      pollRun c fuel' p.1 p.2 (tr ++ [Ev.sleep 1, Ev.retrieveRun r.id])
  else
    some (r, s, tr)

/-- Reply extraction of `ask`: scan the (newest-first) message list for the
first message with role "assistant" that has a content part of type
"text", and return that part's text; return `""` if there is none.  This
is the nested `for` loop at the end of `OpenAIClient.ask`. -/
def extractReply : List RemoteMsg → String
  | [] => ""
  | m :: ms =>
    if m.role = "assistant" then
      match (m.content.filter (fun p => p.type = "text")).head? with
      | some p => p.text
      | none => extractReply ms
    else
      extractReply ms

/-- Retry loop of `ask` (`for attempt in range(1, max_retries + 1)`).
`rem` is the number of loop iterations still available (initially
`maxRetries`) and `attempt` the 1-based attempt counter; the source guard
`attempt < max_retries` is kept literally.  Each iteration starts a run,
polls it to a terminal status, breaks on "completed", and on "failed"
either backs off `2 ^ attempt` seconds and retries (code "server_error"
with attempts remaining) or raises; any other terminal status falls
through to the next iteration.  Returns `.ok ()` when the loop exits via
`break` or by exhausting its range. -/
def runLoop {σ : Type} (c : Client σ) (pf : Nat) (maxRetries : Nat) :
    Nat → Nat → σ → List Ev → Option (Except AskErr Unit × σ × List Ev)
  | 0, _, s, tr => some (.ok (), s, tr)
  | rem + 1, attempt, s, tr =>
    let cr := c.createRun s
    match pollRun c pf cr.1 cr.2 (tr ++ [Ev.createRun]) with
    | none => none
    | some (run2, s2, tr2) =>
      if run2.status = "completed" then
        some (.ok (), s2, tr2)
      else if run2.status = "failed" then
        if run2.errorCode = "server_error" ∧ attempt < maxRetries then
          runLoop c pf maxRetries rem (attempt + 1) s2 (tr2 ++ [Ev.sleep (2 ^ attempt)])
        else
          some (.error (.runFailed run2.errorCode run2.errorMessage), s2, tr2)
      else
        runLoop c pf maxRetries rem (attempt + 1) s2 tr2

/-- Phase of `ask` after the drain: post the user message, run the retry
loop, and on non-exceptional exit fetch the message list and extract the
reply. -/
def askMain {σ : Type} (c : Client σ) (pf : Nat) (userMessage : String)
    (maxRetries : Nat) (s : σ) (tr : List Ev) :
    Option (Except AskErr String × σ × List Ev) :=
  let s1 := c.createMessage "user" userMessage s
  match runLoop c pf maxRetries maxRetries 1 s1 (tr ++ [Ev.createMessage "user" userMessage]) with
  | none => none
  | some (.error e, s2, tr2) => some (.error e, s2, tr2)
  | some (.ok _, s2, tr2) =>
    let lm := c.listMessages s2
    some (.ok (extractReply lm.1), lm.2, tr2 ++ [Ev.listMessages])

/-- Shallow embedding of `OpenAIClient.ask`.  Drain phase: list the latest
run; if it is "queued" or "in_progress", poll it to a terminal status and
raise if that status is "failed"; then post the user message and enter the
retry loop.  `pf` is polling fuel (the source polls unboundedly; `none`
models non-termination within the fuel).  The result carries the reply or
error, the final client state, and the trace of remote calls. -/
def ask {σ : Type} (c : Client σ) (pf : Nat) (userMessage : String)
    (maxRetries : Nat) (s : σ) :
    Option (Except AskErr String × σ × List Ev) :=
  let lr := c.listRuns s
  match lr.1 with
  | some latest =>
    if latest.status = "queued" ∨ latest.status = "in_progress" then
      match pollRun c pf latest lr.2 [Ev.listRuns] with
      | none => none
      | some (latest2, s2, tr2) =>
        if latest2.status = "failed" then
          some (.error (.prevRunFailed latest2.errorCode latest2.errorMessage), s2, tr2)
        else
          askMain c pf userMessage maxRetries s2 tr2
    else
      askMain c pf userMessage maxRetries lr.2 [Ev.listRuns]
  | none => askMain c pf userMessage maxRetries lr.2 [Ev.listRuns]

/-! ### Scripted fake remote client

A deterministic fake client of the kind the specification's testable
properties quantify over ("given a fake Remote Conversation Client
that ...").  Each run is scripted: `pend` retrieve-polls return
"in_progress" before the run settles into its `final` status with the
scripted error code and message.  The optional `prior` script is the
latest run already on the thread when `ask` is called (id 0); created
runs get ids 1, 2, ... and follow `runs i`. -/

/-- Script for one fake run: number of polls before it becomes terminal,
its terminal status, and its error code/message. -/
structure RunScript where
  pend : Nat
  final : String
  errCode : String
  errMsg : String
  deriving Repr, DecidableEq

/-- Configuration of the scripted fake client. -/
structure FakeCfg where
  prior : Option RunScript
  runs : Nat → RunScript
  msgs : List RemoteMsg

/-- Mutable state of the scripted fake client: polls left on the prior
run, number of runs started, polls left on the current run. -/
structure FakeSt where
  priorLeft : Nat
  started : Nat
  curLeft : Nat
  deriving Repr, DecidableEq

/-- Status a scripted run reports with `left` polls outstanding. -/
def statusOf (left : Nat) (final : String) : String :=
  if left = 0 then final else "in_progress"

/-- Run info the fake reports for run id `i` scripted by `sc` with `left`
polls outstanding. -/
def scriptInfo (i : Nat) (sc : RunScript) (left : Nat) : RunInfo :=
  ⟨i, statusOf left sc.final, sc.errCode, sc.errMsg⟩

/-- Initial fake state for a configuration. -/
def initSt (cfg : FakeCfg) : FakeSt :=
  ⟨(cfg.prior.map RunScript.pend).getD 0, 0, 0⟩

/-- The scripted fake client as an instance of the abstract `Client`. -/
def fakeClient (cfg : FakeCfg) : Client FakeSt where
  listRuns s := (cfg.prior.map (fun sc => scriptInfo 0 sc s.priorLeft), s)
  retrieveRun i s :=
    if i = 0 then
      match cfg.prior with
      | some sc => (scriptInfo 0 sc (s.priorLeft - 1), { s with priorLeft := s.priorLeft - 1 })
      | none => (⟨0, "completed", "", ""⟩, s)
    else
      (scriptInfo i (cfg.runs i) (s.curLeft - 1), { s with curLeft := s.curLeft - 1 })
  createMessage _ _ s := s
  createRun s :=
    let i := s.started + 1
    let sc := cfg.runs i
    (scriptInfo i sc sc.pend, { s with started := i, curLeft := sc.pend })
  listMessages s := (cfg.msgs, s)

/-! ### Message Store

Shallow embedding of `GptThreadRepository` over the schema created by
`DatabaseInitializer.create_tables`.  A `DbState` holds the two tables as
lists in rowid (insertion) order.  `create_thread` enforces the two
uniqueness constraints (`UNIQUE(tg_user_id, mode)` and the `UNIQUE`
`openai_thread_id` column) — SQLite raises `IntegrityError`, the
specification's `ConflictError`.  `add_message` enforces the `role`
CHECK constraint, which SQLite applies unconditionally; the declared
FOREIGN KEY is NOT checked, because the connection opened by
`add_message` never executes `PRAGMA foreign_keys = ON` and SQLite
disables foreign-key enforcement per-connection by default. -/

/-- One row of `gpt_sessions`. -/
structure SessionRow where
  tgUserId : Int
  mode : String
  openaiThreadId : String
  deriving Repr, DecidableEq

/-- One row of `gpt_messages`; `createdAt` is the `CURRENT_TIMESTAMP`
value taken at insert time. -/
structure MessageRow where
  openaiThreadId : String
  role : String
  content : String
  createdAt : Nat
  deriving Repr, DecidableEq

/-- The database: both tables, rows in rowid (insertion) order. -/
structure DbState where
  sessions : List SessionRow
  messages : List MessageRow
  deriving Repr, DecidableEq

/-- The freshly initialized database. -/
def emptyDb : DbState := ⟨[], []⟩

/-- Errors raised by the store (`sqlite3.IntegrityError` variants):
uniqueness conflict or CHECK-constraint violation. -/
inductive DbErr where
  | conflict : DbErr
  | checkViolation : DbErr
  deriving Repr, DecidableEq

/-- Embedding of `GptThreadRepository.get_thread_id`: the
`openai_thread_id` of the session row matching `(tg_user_id, mode)`. -/
def getThreadId (u : Int) (m : String) (st : DbState) : Option String :=
  (st.sessions.find? (fun r => r.tgUserId == u && r.mode == m)).map
    (fun r => r.openaiThreadId)

/-- Embedding of `GptThreadRepository.create_thread`: insert a session
row; the insert fails with `IntegrityError` (modelled `.conflict`) when
`(tg_user_id, mode)` or `openai_thread_id` already exists, leaving the
table unchanged. -/
def createThread (u : Int) (m : String) (tid : String) (st : DbState) :
    Except DbErr DbState :=
  if st.sessions.any (fun r => r.tgUserId == u && r.mode == m) ||
      st.sessions.any (fun r => r.openaiThreadId == tid) then
    .error .conflict
  else
    .ok { st with sessions := st.sessions ++ [⟨u, m, tid⟩] }

/-- The CHECK constraint on `gpt_messages.role`. -/
def validRole (role : String) : Bool :=
  role == "user" || role == "assistant" || role == "system"

/-- Embedding of `GptThreadRepository.add_message`: append a message row
with the current timestamp `now`.  Only the role CHECK constraint can
fail; the FOREIGN KEY to `gpt_sessions` is not enforced on this
connection (no `PRAGMA foreign_keys = ON` in `add_message`). -/
def addMessage (tid role content : String) (now : Nat) (st : DbState) :
    Except DbErr DbState :=
  if validRole role then
    .ok { st with messages := st.messages ++ [⟨tid, role, content, now⟩] }
  else
    .error .checkViolation

/-- Stable insert of a message row into a list sorted by `createdAt`
(equal timestamps keep their relative order). -/
def insertByTime (r : MessageRow) : List MessageRow → List MessageRow
  | [] => [r]
  | x :: xs =>
    if r.createdAt ≤ x.createdAt then r :: x :: xs else x :: insertByTime r xs

/-- Stable sort by `createdAt`, modelling `ORDER BY created_at` over rows
scanned in rowid order. -/
def sortByTime (l : List MessageRow) : List MessageRow :=
  l.foldr insertByTime []

/-- Embedding of `GptThreadRepository.get_messages`: the rows of the given
thread, ordered by `created_at`, projected to (role, content). -/
def getMessages (tid : String) (st : DbState) : List (String × String) :=
  (sortByTime (st.messages.filter (fun r => r.openaiThreadId == tid))).map
    (fun r => (r.role, r.content))

/-! ### Thread Resolver -/

/-- Error raised by the remote client's `create_thread` (`OpenAIError`). -/
structure RemoteErr where
  msg : String
  deriving Repr, DecidableEq

/-- Calls the resolver makes, in order: store lookup, remote thread
creation, store insert. -/
inductive ResEv where
  | dbGet : ResEv
  | remoteCreate : ResEv
  | dbCreate : ResEv
  deriving Repr, DecidableEq

/-- Errors propagated by the resolver. -/
inductive ResolverErr where
  | remote : RemoteErr → ResolverErr
  | storage : DbErr → ResolverErr
  deriving Repr, DecidableEq

/-- Shallow embedding of `get_or_create_thread_id`: look up the store; on
a hit return the stored id; on a miss create a remote thread (whose
failure propagates with the store untouched) and record the mapping.
`create` is the Remote Conversation Client's thread creation over client
state `σ`; the result carries the store, the client state, and the call
trace. -/
def get_or_create_thread_id {σ : Type} (u : Int) (m : String) (st : DbState)
    (create : σ → Except RemoteErr String × σ) (s : σ) :
    Except ResolverErr String × DbState × σ × List ResEv :=
  match getThreadId u m st with
  | some tid => (.ok tid, st, s, [.dbGet])
  | none =>
    match create s with
    | (.error e, s1) => (.error (.remote e), st, s1, [.dbGet, .remoteCreate])
    | (.ok tid, s1) =>
      match createThread u m tid st with
      | .error e => (.error (.storage e), st, s1, [.dbGet, .remoteCreate, .dbCreate])
      | .ok st1 => (.ok tid, st1, s1, [.dbGet, .remoteCreate, .dbCreate])

/-! ### Structured-Response Retry Wrapper

Embedding of `ask_quiz_with_retries`.  The underlying `ask` outcome for
each attempt is given by `askResult` (an `OpenAIError` or a reply
string); `loads` models `json.loads` (`none` is a `JSONDecodeError`, and
a parsed value is classified only as a list of items or a non-list, which
is all the source inspects).  The wrapper counts `ask` calls. -/

/-- A parsed JSON value, as far as the wrapper inspects it: a list of
items or anything else. -/
inductive PyJson where
  | arr : List PyJson → PyJson
  | nonArr : PyJson

/-- The cause the terminal `RuntimeError` reports. -/
inductive QuizCause where
  | remoteError : QuizCause
  | jsonDecode : QuizCause
  | invalidShape : QuizCause
  deriving Repr, DecidableEq

/-- Terminal errors of the wrapper (`RuntimeError`; the specification's
`GenerationError`).  `unknownFailure` is the fall-through raise after the
loop, reachable only with zero attempts. -/
inductive QuizErr where
  | generation : QuizCause → QuizErr
  | unknownFailure : QuizErr
  deriving Repr, DecidableEq

/-- Retry loop of `ask_quiz_with_retries` (`for attempt in
range(1, max_attempts + 1)`): each iteration calls `ask` (counted in
`calls`); an `OpenAIError`, a JSON decode failure, or a value that is not
a non-empty list raises the corresponding `RuntimeError` when
`attempt == max_attempts` and otherwise continues; a non-empty list is
returned together with the raw response. -/
def askQuizLoop (askResult : Nat → Except RemoteErr String)
    (loads : String → Option PyJson) (maxAttempts : Nat) :
    Nat → Nat → Nat → Except QuizErr (String × List PyJson) × Nat
  | 0, _, calls => (.error .unknownFailure, calls)
  | rem + 1, attempt, calls =>
    match askResult attempt with
    | .error _ =>
      if attempt = maxAttempts then (.error (.generation .remoteError), calls + 1)
      else askQuizLoop askResult loads maxAttempts rem (attempt + 1) (calls + 1)
    | .ok resp =>
      match loads resp with
      | none =>
        if attempt = maxAttempts then (.error (.generation .jsonDecode), calls + 1)
        else askQuizLoop askResult loads maxAttempts rem (attempt + 1) (calls + 1)
      | some (.arr items) =>
        if items.isEmpty then
          if attempt = maxAttempts then (.error (.generation .invalidShape), calls + 1)
          else askQuizLoop askResult loads maxAttempts rem (attempt + 1) (calls + 1)
        else
          (.ok (resp, items), calls + 1)
      | some .nonArr =>
        if attempt = maxAttempts then (.error (.generation .invalidShape), calls + 1)
        else askQuizLoop askResult loads maxAttempts rem (attempt + 1) (calls + 1)

/-- Shallow embedding of `ask_quiz_with_retries`: run the loop from
attempt 1 with `maxAttempts` iterations available. -/
def ask_quiz_with_retries (askResult : Nat → Except RemoteErr String)
    (loads : String → Option PyJson) (maxAttempts : Nat) :
    Except QuizErr (String × List PyJson) × Nat :=
  askQuizLoop askResult loads maxAttempts maxAttempts 1 0

/-- Classification of one attempt's outcome: `none` when the attempt
would succeed, otherwise the failure cause the source logs and, on the
last attempt, raises. -/
def attemptCause (askResult : Nat → Except RemoteErr String)
    (loads : String → Option PyJson) (a : Nat) : Option QuizCause :=
  match askResult a with
  | .error _ => some .remoteError
  | .ok resp =>
    match loads resp with
    | none => some .jsonDecode
    | some (.arr items) => if items.isEmpty then some .invalidShape else none
    | some .nonArr => some .invalidShape

/-! ### Interleaved insert runs (for the message-ordering property) -/

/-- One `add_message` call in an interleaved run: target thread, role,
content, and the `CURRENT_TIMESTAMP` value at insert time. -/
structure AddOp where
  tid : String
  role : String
  content : String
  time : Nat
  deriving Repr, DecidableEq

/-- The row an `AddOp` inserts. -/
def toRow (op : AddOp) : MessageRow :=
  ⟨op.tid, op.role, op.content, op.time⟩

/-- Run a sequence of `add_message` calls, stopping at the first error. -/
def runAdds : List AddOp → DbState → Except DbErr DbState
  | [], st => .ok st
  | op :: ops, st =>
    match addMessage op.tid op.role op.content op.time st with
    | .error e => .error e
    | .ok st1 => runAdds ops st1

/-- Interleaved inserts across two threads, used to instantiate the
message-ordering property at a concrete input. -/
def interleavedOps : List AddOp :=
  [⟨"t1", "user", "a", 0⟩, ⟨"t2", "user", "b", 0⟩,
   ⟨"t1", "assistant", "c", 1⟩, ⟨"t2", "assistant", "d", 1⟩,
   ⟨"t1", "user", "e", 2⟩]

/-- Events one polling loop over run id `i` emits for `l` polls: the
source sleeps one second, then retrieves, per iteration. -/
def pollEvents (i : Nat) : Nat → List Ev
  | 0 => []
  | l + 1 => Ev.sleep 1 :: Ev.retrieveRun i :: pollEvents i l

/-- A run that fails transiently after one poll. -/
def failScript : RunScript := ⟨1, "failed", "server_error", "overloaded"⟩

/-- A run that completes after one poll. -/
def doneScript : RunScript := ⟨1, "completed", "", ""⟩

/-- A run that is immediately cancelled (a terminal status `ask` never
names). -/
def cancelScript : RunScript := ⟨0, "cancelled", "", ""⟩

/-- A newest-first remote message list whose most recent assistant
message says "hi there". -/
def replyMsgs : List RemoteMsg :=
  [⟨"assistant", [⟨"text", "hi there"⟩]⟩, ⟨"user", [⟨"text", "hello"⟩]⟩]

/-- Fake client whose first two runs fail transiently and whose third
completes. -/
def cfgRetryOk : FakeCfg := ⟨none, fun i => if i = 3 then doneScript else failScript, replyMsgs⟩

/-- Fake client whose runs always fail transiently. -/
def cfgRetryFail : FakeCfg := ⟨none, fun _ => failScript, replyMsgs⟩

/-- Fake client with a pending prior run that terminates as failed. -/
def cfgPriorFailed : FakeCfg :=
  ⟨some ⟨1, "failed", "server_error", "prior blew up"⟩, fun _ => doneScript, replyMsgs⟩

/-- Fake client with no prior run whose first run completes. -/
def cfgCompleted : FakeCfg := ⟨none, fun _ => doneScript, replyMsgs⟩

/-- Fake client all of whose runs end cancelled. -/
def cfgCancelled : FakeCfg := ⟨none, fun _ => cancelScript, replyMsgs⟩

/-! ## Theorems -/

/-- C3: the specification requires `addMessage` to fail with
`ReferenceError` when `threadId` matches no session and never to succeed
silently; the code violates this.  `add_message` opens its SQLite
connection without `PRAGMA foreign_keys = ON` (unlike `get_thread_id` and
`create_thread`), so the FOREIGN KEY declared in the schema is not
enforced: on the empty database, which has no session at all, inserting a
message for the unknown thread "ghost" succeeds and appends the row. -/
theorem addMessage_unknown_thread_succeeds :
    emptyDb.sessions = [] ∧
    addMessage "ghost" "user" "hi" 0 emptyDb =
      .ok ⟨[], [⟨"ghost", "user", "hi", 0⟩]⟩ := by
  constructor
  · rfl
  · rfl

/-- C4: when a session mapping for `(userId, mode)` is already stored,
`get_or_create_thread_id` returns the stored thread id with the store and
remote-client state unchanged and with a trace consisting of the single
store lookup — in particular the Remote Conversation Client is never
invoked — and calling it again on the resulting state returns the very
same thread id. -/
theorem resolveThread_idempotent {σ : Type} (u : Int) (m t : String)
    (st : DbState) (create : σ → Except RemoteErr String × σ) (s : σ)
    (h : getThreadId u m st = some t) :
    get_or_create_thread_id u m st create s = (.ok t, st, s, [.dbGet]) ∧
    ResEv.remoteCreate ∉ (get_or_create_thread_id u m st create s).2.2.2 ∧
    get_or_create_thread_id u m (get_or_create_thread_id u m st create s).2.1
      create (get_or_create_thread_id u m st create s).2.2.1 =
      (.ok t, st, s, [.dbGet]) := by
  have h1 : get_or_create_thread_id u m st create s = (.ok t, st, s, [.dbGet]) := by
    unfold get_or_create_thread_id
    rw [h]
  refine ⟨h1, ?_, ?_⟩
  · rw [h1]
    simp
  · rw [h1, h1]

/-- Witness for C4 at a concrete store: user 42, mode "gpt" already
mapped to thread "t1"; the resolver returns "t1" without any remote
call. -/
theorem resolveThread_idempotent_witness :
    get_or_create_thread_id 42 "gpt" (⟨[⟨42, "gpt", "t1"⟩], []⟩ : DbState)
      (fun s : Unit => (.ok "t2", s)) () =
      (.ok "t1", (⟨[⟨42, "gpt", "t1"⟩], []⟩ : DbState), (), [.dbGet]) :=
  (resolveThread_idempotent 42 "gpt" "t1" ⟨[⟨42, "gpt", "t1"⟩], []⟩
    (fun s : Unit => (.ok "t2", s)) () (by decide)).1

/-- C5: when no session exists for `(userId, mode)` and the Remote
Conversation Client's thread creation fails, the resolver propagates the
remote error and leaves the store exactly as it was — in particular no
session row is recorded for the pair. -/
theorem resolveThread_remote_failure {σ : Type} (u : Int) (m : String)
    (st : DbState) (create : σ → Except RemoteErr String × σ) (s s1 : σ)
    (e : RemoteErr)
    (h1 : getThreadId u m st = none) (h2 : create s = (.error e, s1)) :
    get_or_create_thread_id u m st create s =
      (.error (.remote e), st, s1, [.dbGet, .remoteCreate]) ∧
    getThreadId u m (get_or_create_thread_id u m st create s).2.1 = none := by
  have heq : get_or_create_thread_id u m st create s =
      (.error (.remote e), st, s1, [.dbGet, .remoteCreate]) := by
    unfold get_or_create_thread_id
    rw [h1, h2]
  exact ⟨heq, by rw [heq]; exact h1⟩

/-- Witness for C5 at a concrete input: empty store, a client whose
thread creation fails; the error propagates and the store stays empty. -/
theorem resolveThread_remote_failure_witness :
    get_or_create_thread_id 42 "gpt" emptyDb
      (fun s : Unit => (.error ⟨"boom"⟩, s)) () =
      (.error (.remote ⟨"boom"⟩), emptyDb, (), [.dbGet, .remoteCreate]) :=
  (resolveThread_remote_failure 42 "gpt" emptyDb
    (fun s : Unit => (.error ⟨"boom"⟩, s)) () () ⟨"boom"⟩ (by decide) rfl).1

/-- C6: after a successful `createThread` for `(u, m)` with thread id
`tid`, inserting again for the same `(u, m)` (with any thread id) raises
`ConflictError`, and inserting any session (for any user and mode) that
reuses `tid` also raises `ConflictError`; an insert that returns an error
leaves the store unchanged by construction, so no session row is added in
either case. -/
theorem createThread_unique (u u2 : Int) (m m2 tid tid2 : String)
    (st st' : DbState) (h : createThread u m tid st = .ok st') :
    createThread u m tid2 st' = .error .conflict ∧
    createThread u2 m2 tid st' = .error .conflict := by
  unfold createThread at h
  split at h
  · exact absurd h (by simp)
  · rename_i hguard
    have hst : st' = { st with sessions := st.sessions ++ [⟨u, m, tid⟩] } := by
      cases h
      rfl
    subst hst
    constructor
    · unfold createThread
      split
      · rfl
      · rename_i hg2
        exact absurd (by simp) hg2
    · unfold createThread
      split
      · rfl
      · rename_i hg2
        exact absurd (by simp) hg2

/-- Witness for C6 at a concrete store: create (42, "gpt", "t1") on the
empty store, then both conflicting re-inserts fail. -/
theorem createThread_unique_witness :
    createThread 42 "gpt" "t9" (⟨[⟨42, "gpt", "t1"⟩], []⟩ : DbState) =
      .error .conflict ∧
    createThread 7 "quiz" "t1" (⟨[⟨42, "gpt", "t1"⟩], []⟩ : DbState) =
      .error .conflict :=
  createThread_unique 42 7 "gpt" "quiz" "t1" "t9" emptyDb
    ⟨[⟨42, "gpt", "t1"⟩], []⟩ rfl

/-- Inserting a row whose timestamp is at most every timestamp in the
list puts it at the front. -/
lemma insertByTime_front (r : MessageRow) (l : List MessageRow)
    (h : ∀ x ∈ l, r.createdAt ≤ x.createdAt) : insertByTime r l = r :: l := by
  cases l with
  | nil => rfl
  | cons x xs =>
    unfold insertByTime
    rw [if_pos (h x (List.mem_cons_self x xs))]

/-- Sorting a list already in non-decreasing timestamp order leaves it
unchanged. -/
lemma sortByTime_eq_self (l : List MessageRow)
    (h : l.Pairwise (fun a b => a.createdAt ≤ b.createdAt)) :
    sortByTime l = l := by
  induction l with
  | nil => rfl
  | cons x xs ih =>
    rcases List.pairwise_cons.mp h with ⟨hx, hxs⟩
    have : sortByTime (x :: xs) = insertByTime x (sortByTime xs) := rfl
    rw [this, ih hxs, insertByTime_front x xs hx]

/-- Running `add_message` calls with valid roles succeeds and appends the
corresponding rows in call order. -/
lemma runAdds_ok (ops : List AddOp) (st : DbState)
    (h : ∀ op ∈ ops, validRole op.role = true) :
    runAdds ops st = .ok { st with messages := st.messages ++ ops.map toRow } := by
  induction ops generalizing st with
  | nil => simp [runAdds]
  | cons op ops ih =>
    have hop := h op (List.mem_cons_self op ops)
    have hops : ∀ o ∈ ops, validRole o.role = true :=
      fun o ho => h o (List.mem_cons_of_mem op ho)
    unfold runAdds addMessage
    rw [if_pos hop]
    show runAdds ops _ = _
    rw [ih _ hops]
    simp [toRow]

/-- C9: running any sequence of `add_message` calls with valid roles and
non-decreasing timestamps on the fresh database succeeds, and for every
thread `t`, `getMessages t` then returns exactly the (role, content)
pairs of the calls that targeted `t`, in call order — no rows from other
threads, and the empty list for a thread no call targeted. -/
theorem getMessages_insertion_order (ops : List AddOp)
    (hrole : ∀ op ∈ ops, validRole op.role = true)
    (htime : ops.Pairwise (fun a b => a.time ≤ b.time)) :
    ∃ st', runAdds ops emptyDb = .ok st' ∧
      ∀ t, getMessages t st' =
        (ops.filter (fun op => op.tid == t)).map (fun op => (op.role, op.content)) := by
  refine ⟨⟨[], ops.map toRow⟩, runAdds_ok ops emptyDb hrole, ?_⟩
  intro t
  unfold getMessages
  have hfil : (ops.map toRow).filter (fun r => r.openaiThreadId == t) =
      (ops.filter (fun op => op.tid == t)).map toRow := by
    rw [List.filter_map]
    rfl
  have hsorted : ((ops.filter (fun op => op.tid == t)).map toRow).Pairwise
      (fun a b => a.createdAt ≤ b.createdAt) := by
    rw [List.pairwise_map]
    exact List.Pairwise.sublist (List.filter_sublist _) htime
  show (sortByTime ((ops.map toRow).filter (fun r => r.openaiThreadId == t))).map
      (fun r => (r.role, r.content)) = _
  rw [hfil, sortByTime_eq_self _ hsorted, List.map_map]
  rfl

/-- Witness for C9: five interleaved inserts across threads "t1" and
"t2" with non-decreasing timestamps; each thread gets back exactly its
own messages in call order, and a never-used thread gets the empty
list. -/
theorem getMessages_insertion_order_witness :
    ∃ st', runAdds interleavedOps emptyDb = .ok st' ∧
      ∀ t, getMessages t st' =
        (interleavedOps.filter (fun op => op.tid == t)).map
          (fun op => (op.role, op.content)) :=
  getMessages_insertion_order interleavedOps (by decide) (by decide)

/-- One failing iteration of the quiz retry loop: with the current
attempt classified as failing with cause `c`, the loop raises when the
attempt is the last and otherwise moves on, having consumed one `ask`
call either way. -/
lemma askQuizLoop_step_bad (askResult : Nat → Except RemoteErr String)
    (loads : String → Option PyJson) (maxAttempts r attempt calls : Nat)
    (c : QuizCause)
    (hc : attemptCause askResult loads attempt = some c) :
    askQuizLoop askResult loads maxAttempts (r + 1) attempt calls =
      if attempt = maxAttempts then (.error (.generation c), calls + 1)
      else askQuizLoop askResult loads maxAttempts r (attempt + 1) (calls + 1) := by
  unfold attemptCause at hc
  cases hA : askResult attempt with
  | error e =>
    rw [hA] at hc
    have hc2 : some QuizCause.remoteError = some c := hc
    cases hc2
    simp only [askQuizLoop, hA]
  | ok resp =>
    rw [hA] at hc
    dsimp only at hc
    cases hL : loads resp with
    | none =>
      rw [hL] at hc
      have hc2 : some QuizCause.jsonDecode = some c := hc
      cases hc2
      simp only [askQuizLoop, hA, hL]
    | some v =>
      rw [hL] at hc
      cases v with
      | nonArr =>
        have hc2 : some QuizCause.invalidShape = some c := hc
        cases hc2
        simp only [askQuizLoop, hA, hL]
      | arr items =>
        cases hi : items.isEmpty with
        | false =>
          have hc2 : (if items.isEmpty = true then some QuizCause.invalidShape
              else none) = some c := hc
          rw [hi] at hc2
          simp at hc2
        | true =>
          have hc2 : (if items.isEmpty = true then some QuizCause.invalidShape
              else none) = some c := hc
          rw [hi] at hc2
          simp at hc2
          cases hc2
          simp only [askQuizLoop, hA, hL, hi]
          simp

/-- When every attempt from `attempt` through `maxAttempts` fails (is
classified by `attemptCause`), the quiz retry loop consumes all remaining
iterations, makes one `ask` call per iteration, and raises the
`RuntimeError` matching the last attempt's cause. -/
lemma askQuizLoop_all_bad (askResult : Nat → Except RemoteErr String)
    (loads : String → Option PyJson) (maxAttempts : Nat) (c : QuizCause)
    (hlast : attemptCause askResult loads maxAttempts = some c) :
    ∀ rem attempt calls, attempt + rem = maxAttempts + 1 → 1 ≤ rem →
      (∀ a, attempt ≤ a → a ≤ maxAttempts →
        (attemptCause askResult loads a).isSome = true) →
      askQuizLoop askResult loads maxAttempts rem attempt calls =
        (.error (.generation c), calls + rem) := by
  intro rem
  induction rem with
  | zero =>
    intro attempt calls _ h2 _
    omega
  | succ r ih =>
    intro attempt calls hsum _ hbad
    have hattle : attempt ≤ maxAttempts := by omega
    have hcause := hbad attempt (Nat.le_refl attempt) hattle
    obtain ⟨c0, hc0⟩ := Option.isSome_iff_exists.mp hcause
    rw [askQuizLoop_step_bad askResult loads maxAttempts r attempt calls c0 hc0]
    rcases Nat.eq_zero_or_pos r with h0 | hpos
    · have heq : attempt = maxAttempts := by omega
      rw [if_pos heq]
      subst heq
      rw [hc0] at hlast
      cases hlast
      subst h0
      rfl
    · have hne : ¬ attempt = maxAttempts := by omega
      rw [if_neg hne, ih (attempt + 1) (calls + 1) (by omega) hpos
        (fun a ha hb => hbad a (by omega) hb)]
      congr 1
      omega

/-- C8: when every attempt's outcome is bad — the underlying `ask` raises,
or its reply fails to parse as JSON, or parses to something other than a
non-empty list — `ask_quiz_with_retries` calls `ask` exactly
`maxAttempts` times and raises the single terminal `RuntimeError`
(`GenerationError`) describing the cause observed on the last attempt; it
returns no partially parsed value, and parse failures and shape
mismatches consume attempts exactly as remote errors do (all three are
classified uniformly by `attemptCause`). -/
theorem askQuiz_exhausts_attempts (askResult : Nat → Except RemoteErr String)
    (loads : String → Option PyJson) (maxAttempts : Nat) (c : QuizCause)
    (hmax : 1 ≤ maxAttempts)
    (hbad : ∀ a, 1 ≤ a → a ≤ maxAttempts →
      (attemptCause askResult loads a).isSome = true)
    (hlast : attemptCause askResult loads maxAttempts = some c) :
    ask_quiz_with_retries askResult loads maxAttempts =
      (.error (.generation c), maxAttempts) := by
  unfold ask_quiz_with_retries
  rw [askQuizLoop_all_bad askResult loads maxAttempts c hlast maxAttempts 1 0
    (by omega) hmax hbad]
  simp

/-- Witness for C8: a client that always replies with unparseable text;
with two attempts allowed, the wrapper makes exactly two `ask` calls and
raises the JSON-decode `GenerationError`. -/
theorem askQuiz_exhausts_attempts_witness :
    ask_quiz_with_retries (fun _ => .ok "not json") (fun _ => none) 2 =
      (.error (.generation .jsonDecode), 2) :=
  askQuiz_exhausts_attempts (fun _ => .ok "not json") (fun _ => none) 2
    .jsonDecode (by decide) (fun a _ _ => rfl) rfl

/-- Unfolding: one polling step while the run is still pending. -/
lemma pollRun_succ {σ : Type} (c : Client σ) (f : Nat) (r : RunInfo) (s : σ)
    (tr : List Ev) (h : r.status = "queued" ∨ r.status = "in_progress") :
    pollRun c (f + 1) r s tr =
      pollRun c f (c.retrieveRun r.id s).1 (c.retrieveRun r.id s).2
        (tr ++ [Ev.sleep 1, Ev.retrieveRun r.id]) := by
  rw [pollRun, if_pos h]

/-- Unfolding: polling a run already in a non-pending status returns it
unchanged. -/
lemma pollRun_done {σ : Type} (c : Client σ) (f : Nat) (r : RunInfo) (s : σ)
    (tr : List Ev) (h : ¬ (r.status = "queued" ∨ r.status = "in_progress")) :
    pollRun c f r s tr = some (r, s, tr) := by
  rw [pollRun.eq_def, if_neg h]

/-- Unfolding: the retry loop with no iterations left exits normally. -/
lemma runLoop_zero {σ : Type} (c : Client σ) (pf maxRetries attempt : Nat)
    (s : σ) (tr : List Ev) :
    runLoop c pf maxRetries 0 attempt s tr = some (.ok (), s, tr) := rfl

/-- Unfolding: one iteration of the retry loop. -/
lemma runLoop_succ {σ : Type} (c : Client σ) (pf maxRetries rem attempt : Nat)
    (s : σ) (tr : List Ev) :
    runLoop c pf maxRetries (rem + 1) attempt s tr =
      match pollRun c pf (c.createRun s).1 (c.createRun s).2 (tr ++ [Ev.createRun]) with
      | none => none
      | some (run2, s2, tr2) =>
        if run2.status = "completed" then some (.ok (), s2, tr2)
        else if run2.status = "failed" then
          if run2.errorCode = "server_error" ∧ attempt < maxRetries then
            runLoop c pf maxRetries rem (attempt + 1) s2 (tr2 ++ [Ev.sleep (2 ^ attempt)])
          else some (.error (.runFailed run2.errorCode run2.errorMessage), s2, tr2)
        else runLoop c pf maxRetries rem (attempt + 1) s2 tr2 := rfl

/-- Every polling-trace event is a one-second sleep or a retrieve of the
polled run. -/
lemma pollEvents_mem (i : Nat) :
    ∀ l, ∀ e ∈ pollEvents i l, e = Ev.sleep 1 ∨ e = Ev.retrieveRun i := by
  intro l
  induction l with
  | zero =>
    intro e he
    cases he
  | succ l ih =>
    intro e he
    simp only [pollEvents, List.mem_cons] at he
    rcases he with rfl | rfl | he
    · exact Or.inl rfl
    · exact Or.inr rfl
    · exact ih e he

/-- Polling traces contain no run-start events. -/
lemma pollEvents_count_createRun (i : Nat) :
    ∀ l, (pollEvents i l).count Ev.createRun = 0 := by
  intro l
  induction l with
  | zero => rfl
  | succ l ih =>
    simp [pollEvents, List.count_cons, ih]

/-- Polling a scripted run with id `i ≠ 0` (a created run) walks its `l`
outstanding polls and ends in its terminal status, appending the poll
events to the trace. -/
lemma pollRun_cur (cfg : FakeCfg) (i : Nat) (hi : ¬ i = 0) (sc : RunScript)
    (hsc : cfg.runs i = sc)
    (h1 : ¬ sc.final = "queued") (h2 : ¬ sc.final = "in_progress") :
    ∀ l fuel (s : FakeSt) (tr : List Ev), l ≤ fuel → s.curLeft = l →
      pollRun (fakeClient cfg) fuel (scriptInfo i sc l) s tr =
        some (scriptInfo i sc 0, { s with curLeft := 0 }, tr ++ pollEvents i l) := by
  intro l
  induction l with
  | zero =>
    intro fuel s tr _ hcur
    have hs : ({ s with curLeft := 0 } : FakeSt) = s := by
      obtain ⟨pl, st, cl⟩ := s
      dsimp only at hcur
      subst hcur
      rfl
    rw [pollRun_done _ _ _ _ _ (by simp [scriptInfo, statusOf, h1, h2]), hs]
    simp [pollEvents]
  | succ l ih =>
    intro fuel s tr hle hcur
    cases fuel with
    | zero => omega
    | succ f =>
      have hguard : (scriptInfo i sc (l + 1)).status = "queued" ∨
          (scriptInfo i sc (l + 1)).status = "in_progress" := by
        right
        simp [scriptInfo, statusOf]
      rw [pollRun_succ _ _ _ _ _ hguard]
      have hstep : (fakeClient cfg).retrieveRun i s =
          (scriptInfo i sc l, { s with curLeft := l }) := by
        simp only [fakeClient]
        rw [if_neg hi, hsc, hcur]
        simp
      have hid : (scriptInfo i sc (l + 1)).id = i := rfl
      rw [hid, hstep]
      rw [ih f { s with curLeft := l } (tr ++ [Ev.sleep 1, Ev.retrieveRun i])
        (by omega) rfl]
      simp [pollEvents]

/-- Polling the scripted prior run (id 0) walks its `p` outstanding polls
and ends in its terminal status, appending the poll events. -/
lemma pollRun_prior (cfg : FakeCfg) (psc : RunScript)
    (hprior : cfg.prior = some psc)
    (h1 : ¬ psc.final = "queued") (h2 : ¬ psc.final = "in_progress") :
    ∀ p fuel (s : FakeSt) (tr : List Ev), p ≤ fuel → s.priorLeft = p →
      pollRun (fakeClient cfg) fuel (scriptInfo 0 psc p) s tr =
        some (scriptInfo 0 psc 0, { s with priorLeft := 0 }, tr ++ pollEvents 0 p) := by
  intro p
  induction p with
  | zero =>
    intro fuel s tr _ hcur
    have hs : ({ s with priorLeft := 0 } : FakeSt) = s := by
      obtain ⟨pl, st, cl⟩ := s
      dsimp only at hcur
      subst hcur
      rfl
    rw [pollRun_done _ _ _ _ _ (by simp [scriptInfo, statusOf, h1, h2]), hs]
    simp [pollEvents]
  | succ p ih =>
    intro fuel s tr hle hcur
    cases fuel with
    | zero => omega
    | succ f =>
      have hguard : (scriptInfo 0 psc (p + 1)).status = "queued" ∨
          (scriptInfo 0 psc (p + 1)).status = "in_progress" := by
        right
        simp [scriptInfo, statusOf]
      rw [pollRun_succ _ _ _ _ _ hguard]
      have hstep : (fakeClient cfg).retrieveRun 0 s =
          (scriptInfo 0 psc p, { s with priorLeft := p }) := by
        simp only [fakeClient]
        rw [if_pos trivial, hprior, hcur]
        simp
      have hid : (scriptInfo 0 psc (p + 1)).id = 0 := rfl
      rw [hid, hstep]
      rw [ih f { s with priorLeft := p } (tr ++ [Ev.sleep 1, Ev.retrieveRun 0])
        (by omega) rfl]
      simp [pollEvents]

/-- One retry-loop iteration against the scripted fake: the next run is
created (script `cfg.runs (s.started + 1)`), polled to its terminal
status, and then the source's classification runs: break on "completed";
on "failed" either back off and retry or raise; otherwise fall through to
the next iteration with no backoff. -/
lemma runLoop_step (cfg : FakeCfg) (pf maxRetries rem attempt : Nat)
    (s : FakeSt) (tr : List Ev) (sc : RunScript)
    (hsc : cfg.runs (s.started + 1) = sc) (hf : sc.pend ≤ pf)
    (h1 : ¬ sc.final = "queued") (h2 : ¬ sc.final = "in_progress") :
    runLoop (fakeClient cfg) pf maxRetries (rem + 1) attempt s tr =
      (if sc.final = "completed" then
        some (.ok (), { s with started := s.started + 1, curLeft := 0 },
          tr ++ Ev.createRun :: pollEvents (s.started + 1) sc.pend)
      else if sc.final = "failed" then
        if sc.errCode = "server_error" ∧ attempt < maxRetries then
          runLoop (fakeClient cfg) pf maxRetries rem (attempt + 1)
            { s with started := s.started + 1, curLeft := 0 }
            ((tr ++ Ev.createRun :: pollEvents (s.started + 1) sc.pend) ++
              [Ev.sleep (2 ^ attempt)])
        else
          some (.error (.runFailed sc.errCode sc.errMsg),
            { s with started := s.started + 1, curLeft := 0 },
            tr ++ Ev.createRun :: pollEvents (s.started + 1) sc.pend)
      else
        runLoop (fakeClient cfg) pf maxRetries rem (attempt + 1)
          { s with started := s.started + 1, curLeft := 0 }
          (tr ++ Ev.createRun :: pollEvents (s.started + 1) sc.pend)) := by
  rw [runLoop_succ]
  have hcreate : (fakeClient cfg).createRun s =
      (scriptInfo (s.started + 1) sc sc.pend,
        { s with started := s.started + 1, curLeft := sc.pend }) := by
    simp only [fakeClient]
    rw [hsc]
  rw [hcreate]
  rw [pollRun_cur cfg (s.started + 1) (by omega) sc hsc h1 h2 sc.pend pf
    { s with started := s.started + 1, curLeft := sc.pend }
    (tr ++ [Ev.createRun]) hf rfl]
  simp only [scriptInfo, statusOf, if_pos rfl]
  simp [List.append_assoc]

/-- The retry loop on a fake whose runs at attempts `attempt` through
`maxRetries - 1` fail transiently and whose run at `maxRetries`
completes: it exits successfully having started one run per remaining
attempt. -/
lemma runLoop_transient_then_complete (cfg : FakeCfg) (pf maxRetries : Nat)
    (hfuel : ∀ i, 1 ≤ i → i ≤ maxRetries → (cfg.runs i).pend ≤ pf)
    (hfail : ∀ i, 1 ≤ i → i < maxRetries →
      (cfg.runs i).final = "failed" ∧ (cfg.runs i).errCode = "server_error")
    (hdone : (cfg.runs maxRetries).final = "completed") :
    ∀ rem attempt (s : FakeSt) (tr : List Ev),
      attempt + rem = maxRetries + 1 → 1 ≤ rem → 1 ≤ attempt →
      s.started = attempt - 1 →
      ∃ s2 tr2, runLoop (fakeClient cfg) pf maxRetries rem attempt s tr =
          some (.ok (), s2, tr2) ∧
        tr2.count Ev.createRun = tr.count Ev.createRun + rem := by
  intro rem
  induction rem with
  | zero =>
    intro attempt s tr _ h2 _ _
    omega
  | succ r ih =>
    intro attempt s tr hsum _ hatt hst
    have hstarted : s.started + 1 = attempt := by omega
    have hscEq : cfg.runs (s.started + 1) = cfg.runs attempt := by rw [hstarted]
    rcases Nat.eq_zero_or_pos r with h0 | hpos
    · have heq : attempt = maxRetries := by omega
      subst heq
      subst h0
      rw [runLoop_step cfg pf attempt 0 attempt s tr (cfg.runs attempt) hscEq
        (hfuel attempt (by omega) (le_refl _))
        (by rw [hdone]; decide) (by rw [hdone]; decide)]
      rw [if_pos hdone]
      refine ⟨_, _, rfl, ?_⟩
      simp [List.count_append, List.count_cons, pollEvents_count_createRun]
    · have hlt : attempt < maxRetries := by omega
      obtain ⟨hfailA, hcodeA⟩ := hfail attempt hatt hlt
      rw [runLoop_step cfg pf maxRetries r attempt s tr (cfg.runs attempt) hscEq
        (hfuel attempt (by omega) (by omega))
        (by rw [hfailA]; decide) (by rw [hfailA]; decide)]
      rw [if_neg (by rw [hfailA]; decide), if_pos hfailA, if_pos ⟨hcodeA, hlt⟩]
      obtain ⟨s2, tr2, hrun, hcount⟩ := ih (attempt + 1)
        { s with started := s.started + 1, curLeft := 0 }
        ((tr ++ Ev.createRun :: pollEvents (s.started + 1) (cfg.runs attempt).pend) ++
          [Ev.sleep (2 ^ attempt)])
        (by omega) hpos (by omega) (by dsimp only; omega)
      refine ⟨s2, tr2, hrun, ?_⟩
      rw [hcount]
      simp [List.count_append, List.count_cons, pollEvents_count_createRun]
      omega

/-- The retry loop on a fake all of whose runs fail transiently: it
raises the transient run failure after starting one run per remaining
attempt. -/
lemma runLoop_always_transient (cfg : FakeCfg) (pf maxRetries : Nat)
    (hfuel : ∀ i, 1 ≤ i → i ≤ maxRetries → (cfg.runs i).pend ≤ pf)
    (hfail : ∀ i, 1 ≤ i → i ≤ maxRetries →
      (cfg.runs i).final = "failed" ∧ (cfg.runs i).errCode = "server_error") :
    ∀ rem attempt (s : FakeSt) (tr : List Ev),
      attempt + rem = maxRetries + 1 → 1 ≤ rem → 1 ≤ attempt →
      s.started = attempt - 1 →
      ∃ s2 tr2, runLoop (fakeClient cfg) pf maxRetries rem attempt s tr =
          some (.error (.runFailed "server_error" (cfg.runs maxRetries).errMsg),
            s2, tr2) ∧
        tr2.count Ev.createRun = tr.count Ev.createRun + rem := by
  intro rem
  induction rem with
  | zero =>
    intro attempt s tr _ h2 _ _
    omega
  | succ r ih =>
    intro attempt s tr hsum _ hatt hst
    have hstarted : s.started + 1 = attempt := by omega
    have hscEq : cfg.runs (s.started + 1) = cfg.runs attempt := by rw [hstarted]
    obtain ⟨hfailA, hcodeA⟩ := hfail attempt hatt (by omega)
    rw [runLoop_step cfg pf maxRetries r attempt s tr (cfg.runs attempt) hscEq
      (hfuel attempt (by omega) (by omega))
      (by rw [hfailA]; decide) (by rw [hfailA]; decide)]
    rw [if_neg (by rw [hfailA]; decide), if_pos hfailA]
    rcases Nat.eq_zero_or_pos r with h0 | hpos
    · have heq : attempt = maxRetries := by omega
      rw [if_neg (fun hand => absurd hand.2 (by omega))]
      subst heq
      subst h0
      refine ⟨{ s with started := s.started + 1, curLeft := 0 },
        tr ++ Ev.createRun :: pollEvents (s.started + 1) (cfg.runs attempt).pend,
        ?_, ?_⟩
      · rw [hcodeA]
      · simp [List.count_append, List.count_cons, pollEvents_count_createRun]
    · have hlt : attempt < maxRetries := by omega
      rw [if_pos ⟨hcodeA, hlt⟩]
      obtain ⟨s2, tr2, hrun, hcount⟩ := ih (attempt + 1)
        { s with started := s.started + 1, curLeft := 0 }
        ((tr ++ Ev.createRun :: pollEvents (s.started + 1) (cfg.runs attempt).pend) ++
          [Ev.sleep (2 ^ attempt)])
        (by omega) hpos (by omega) (by dsimp only; omega)
      refine ⟨s2, tr2, hrun, ?_⟩
      rw [hcount]
      simp [List.count_append, List.count_cons, pollEvents_count_createRun]
      omega

/-- The retry loop on a fake all of whose runs end in a terminal status
other than "completed" and "failed": every remaining attempt starts a
fresh run with no backoff sleep, and the loop exits normally; every event
it appends is a run start, a one-second poll sleep, or a run retrieve. -/
lemma runLoop_other_terminal (cfg : FakeCfg) (pf maxRetries : Nat)
    (hfuel : ∀ i, 1 ≤ i → i ≤ maxRetries → (cfg.runs i).pend ≤ pf)
    (hother : ∀ i, 1 ≤ i → i ≤ maxRetries →
      ¬ (cfg.runs i).final = "queued" ∧ ¬ (cfg.runs i).final = "in_progress" ∧
      ¬ (cfg.runs i).final = "completed" ∧ ¬ (cfg.runs i).final = "failed") :
    ∀ rem attempt (s : FakeSt) (tr : List Ev),
      attempt + rem = maxRetries + 1 → 1 ≤ attempt →
      s.started = attempt - 1 →
      ∃ s2 tr2, runLoop (fakeClient cfg) pf maxRetries rem attempt s tr =
          some (.ok (), s2, tr2) ∧
        tr2.count Ev.createRun = tr.count Ev.createRun + rem ∧
        ∀ e ∈ tr2, e ∈ tr ∨ e = Ev.createRun ∨ e = Ev.sleep 1 ∨
          ∃ j, e = Ev.retrieveRun j := by
  intro rem
  induction rem with
  | zero =>
    intro attempt s tr _ _ _
    refine ⟨s, tr, runLoop_zero _ _ _ _ _ _, by simp, ?_⟩
    intro e he
    exact Or.inl he
  | succ r ih =>
    intro attempt s tr hsum hatt hst
    have hstarted : s.started + 1 = attempt := by omega
    have hscEq : cfg.runs (s.started + 1) = cfg.runs attempt := by rw [hstarted]
    obtain ⟨ho1, ho2, ho3, ho4⟩ := hother attempt hatt (by omega)
    rw [runLoop_step cfg pf maxRetries r attempt s tr (cfg.runs attempt) hscEq
      (hfuel attempt (by omega) (by omega)) ho1 ho2]
    rw [if_neg ho3, if_neg ho4]
    obtain ⟨s2, tr2, hrun, hcount, hmem⟩ := ih (attempt + 1)
      { s with started := s.started + 1, curLeft := 0 }
      (tr ++ Ev.createRun :: pollEvents (s.started + 1) (cfg.runs attempt).pend)
      (by omega) (by omega) (by dsimp only; omega)
    refine ⟨s2, tr2, hrun, ?_, ?_⟩
    · rw [hcount]
      simp [List.count_append, List.count_cons, pollEvents_count_createRun]
      omega
    · intro e he
      rcases hmem e he with hin | hk
      · rcases List.mem_append.mp hin with hin2 | hin2
        · exact Or.inl hin2
        · rcases List.mem_cons.mp hin2 with rfl | hin3
          · exact Or.inr (Or.inl rfl)
          · rcases pollEvents_mem _ _ e hin3 with rfl | rfl
            · exact Or.inr (Or.inr (Or.inl rfl))
            · exact Or.inr (Or.inr (Or.inr ⟨_, rfl⟩))
      · exact Or.inr hk

/-- If no message has role "assistant", extraction yields the empty
string. -/
lemma extractReply_no_assistant :
    ∀ msgs : List RemoteMsg, (∀ m ∈ msgs, ¬ m.role = "assistant") →
      extractReply msgs = "" := by
  intro msgs
  induction msgs with
  | nil => intro _; rfl
  | cons m ms ih =>
    intro h
    simp only [extractReply]
    rw [if_neg (h m (List.mem_cons_self m ms))]
    exact ih (fun m2 hm2 => h m2 (List.mem_cons_of_mem m hm2))

/-- Extraction returns the first text part of the first assistant message
in the (newest-first) list, when that message has a text part. -/
lemma extractReply_first_assistant :
    ∀ (pre : List RemoteMsg) (m : RemoteMsg) (post : List RemoteMsg)
      (p : ContentPart),
      (∀ m2 ∈ pre, ¬ m2.role = "assistant") → m.role = "assistant" →
      (m.content.filter (fun q => q.type = "text")).head? = some p →
      extractReply (pre ++ m :: post) = p.text := by
  intro pre
  induction pre with
  | nil =>
    intro m post p _ hrole hhead
    simp only [List.nil_append, extractReply]
    rw [if_pos hrole, hhead]
  | cons x xs ih =>
    intro m post p hpre hrole hhead
    simp only [List.cons_append, extractReply]
    rw [if_neg (hpre x (List.mem_cons_self x xs))]
    exact ih m post p (fun m2 hm2 => hpre m2 (List.mem_cons_of_mem x hm2))
      hrole hhead

/-- Any successful poll extends its input trace. -/
lemma pollRun_extends {σ : Type} (c : Client σ) :
    ∀ (fuel : Nat) (r : RunInfo) (s : σ) (tr : List Ev) r2 s2 tr2,
      pollRun c fuel r s tr = some (r2, s2, tr2) → ∃ ext, tr2 = tr ++ ext := by
  intro fuel
  induction fuel with
  | zero =>
    intro r s tr r2 s2 tr2 h
    by_cases hc : r.status = "queued" ∨ r.status = "in_progress"
    · rw [pollRun, if_pos hc] at h
      cases h
    · rw [pollRun_done _ _ _ _ _ hc] at h
      cases h
      exact ⟨[], (List.append_nil tr).symm⟩
  | succ f ih =>
    intro r s tr r2 s2 tr2 h
    by_cases hc : r.status = "queued" ∨ r.status = "in_progress"
    · rw [pollRun_succ _ _ _ _ _ hc] at h
      obtain ⟨ext, hext⟩ := ih _ _ _ _ _ _ h
      exact ⟨[Ev.sleep 1, Ev.retrieveRun r.id] ++ ext, by rw [hext]; simp⟩
    · rw [pollRun_done _ _ _ _ _ hc] at h
      cases h
      exact ⟨[], (List.append_nil tr).symm⟩

/-- Any terminating retry loop extends its input trace. -/
lemma runLoop_extends {σ : Type} (c : Client σ) (pf maxRetries : Nat) :
    ∀ (rem attempt : Nat) (s : σ) (tr : List Ev) res s2 tr2,
      runLoop c pf maxRetries rem attempt s tr = some (res, s2, tr2) →
      ∃ ext, tr2 = tr ++ ext := by
  intro rem
  induction rem with
  | zero =>
    intro attempt s tr res s2 tr2 h
    rw [runLoop_zero] at h
    cases h
    exact ⟨[], (List.append_nil tr).symm⟩
  | succ r ih =>
    intro attempt s tr res s2 tr2 h
    rw [runLoop_succ] at h
    cases hp : pollRun c pf (c.createRun s).1 (c.createRun s).2
        (tr ++ [Ev.createRun]) with
    | none =>
      rw [hp] at h
      cases h
    | some trip =>
      obtain ⟨run2, s3, tr3⟩ := trip
      rw [hp] at h
      dsimp only at h
      obtain ⟨ext1, hext1⟩ := pollRun_extends c pf _ _ _ _ _ _ hp
      by_cases h1 : run2.status = "completed"
      · rw [if_pos h1] at h
        cases h
        exact ⟨Ev.createRun :: ext1, by rw [hext1]; simp⟩
      · rw [if_neg h1] at h
        by_cases h2 : run2.status = "failed"
        · rw [if_pos h2] at h
          by_cases h3 : run2.errorCode = "server_error" ∧ attempt < maxRetries
          · rw [if_pos h3] at h
            obtain ⟨ext2, hext2⟩ := ih _ _ _ _ _ _ h
            refine ⟨Ev.createRun :: ext1 ++ [Ev.sleep (2 ^ attempt)] ++ ext2, ?_⟩
            rw [hext2, hext1]
            simp
          · rw [if_neg h3] at h
            cases h
            exact ⟨Ev.createRun :: ext1, by rw [hext1]; simp⟩
        · rw [if_neg h2] at h
          obtain ⟨ext2, hext2⟩ := ih _ _ _ _ _ _ h
          refine ⟨Ev.createRun :: ext1 ++ ext2, ?_⟩
          rw [hext2, hext1]
          simp

/-- Any successful main phase extends its input trace. -/
lemma askMain_extends {σ : Type} (c : Client σ) (pf : Nat) (msg : String)
    (maxRetries : Nat) (s : σ) (tr : List Ev) (res : Except AskErr String)
    (s2 : σ) (tr2 : List Ev)
    (h : askMain c pf msg maxRetries s tr = some (res, s2, tr2)) :
    ∃ ext, tr2 = tr ++ ext := by
  unfold askMain at h
  dsimp only at h
  cases hr : runLoop c pf maxRetries maxRetries 1 (c.createMessage "user" msg s)
      (tr ++ [Ev.createMessage "user" msg]) with
  | none =>
    rw [hr] at h
    cases h
  | some trip =>
    obtain ⟨r0, s3, tr3⟩ := trip
    obtain ⟨ext1, hext1⟩ := runLoop_extends c pf maxRetries _ _ _ _ _ _ _ hr
    rw [hr] at h
    cases r0 with
    | error e =>
      cases h
      exact ⟨Ev.createMessage "user" msg :: ext1, by rw [hext1]; simp⟩
    | ok u =>
      cases h
      refine ⟨Ev.createMessage "user" msg :: ext1 ++ [Ev.listMessages], ?_⟩
      rw [hext1]
      simp

/-- With no run on the thread and a retry loop that exits normally,
`ask` posts the message, runs the loop, fetches the message list, and
returns the extracted reply. -/
lemma ask_no_prior_ok (cfg : FakeCfg) (pf maxRetries : Nat)
    (userMessage : String) (hprior : cfg.prior = none)
    (s2 : FakeSt) (tr2 : List Ev)
    (hrun : runLoop (fakeClient cfg) pf maxRetries maxRetries 1 (initSt cfg)
      [Ev.listRuns, Ev.createMessage "user" userMessage] = some (.ok (), s2, tr2)) :
    ask (fakeClient cfg) pf userMessage maxRetries (initSt cfg) =
      some (.ok (extractReply cfg.msgs), s2, tr2 ++ [Ev.listMessages]) := by
  have hlr : (fakeClient cfg).listRuns (initSt cfg) = (none, initSt cfg) := by
    simp only [fakeClient]
    rw [hprior]
    rfl
  unfold ask askMain
  rw [hlr]
  dsimp only
  have hcm : (fakeClient cfg).createMessage "user" userMessage (initSt cfg) =
      initSt cfg := rfl
  have htr : [Ev.listRuns] ++ [Ev.createMessage "user" userMessage] =
      [Ev.listRuns, Ev.createMessage "user" userMessage] := rfl
  rw [hcm, htr, hrun]
  rfl

/-- With no run on the thread and a retry loop that raises, `ask`
propagates the error. -/
lemma ask_no_prior_error (cfg : FakeCfg) (pf maxRetries : Nat)
    (userMessage : String) (hprior : cfg.prior = none)
    (e : AskErr) (s2 : FakeSt) (tr2 : List Ev)
    (hrun : runLoop (fakeClient cfg) pf maxRetries maxRetries 1 (initSt cfg)
      [Ev.listRuns, Ev.createMessage "user" userMessage] =
        some (.error e, s2, tr2)) :
    ask (fakeClient cfg) pf userMessage maxRetries (initSt cfg) =
      some (.error e, s2, tr2) := by
  have hlr : (fakeClient cfg).listRuns (initSt cfg) = (none, initSt cfg) := by
    simp only [fakeClient]
    rw [hprior]
    rfl
  unfold ask askMain
  rw [hlr]
  dsimp only
  have hcm : (fakeClient cfg).createMessage "user" userMessage (initSt cfg) =
      initSt cfg := rfl
  have htr : [Ev.listRuns] ++ [Ev.createMessage "user" userMessage] =
      [Ev.listRuns, Ev.createMessage "user" userMessage] := rfl
  rw [hcm, htr, hrun]

/-- With a prior run still pending (`p ≥ 1` polls outstanding), `ask`
drains it to its terminal status first; if that status is "failed" it
raises at once, otherwise it proceeds to the main phase with the drain
trace already recorded. -/
lemma ask_with_prior (cfg : FakeCfg) (pf maxRetries : Nat)
    (userMessage : String) (psc : RunScript)
    (hprior : cfg.prior = some psc) (hp : 1 ≤ psc.pend) (hfuel : psc.pend ≤ pf)
    (h1 : ¬ psc.final = "queued") (h2 : ¬ psc.final = "in_progress") :
    ask (fakeClient cfg) pf userMessage maxRetries (initSt cfg) =
      (if psc.final = "failed" then
        some (.error (.prevRunFailed psc.errCode psc.errMsg), (⟨0, 0, 0⟩ : FakeSt),
          Ev.listRuns :: pollEvents 0 psc.pend)
      else
        askMain (fakeClient cfg) pf userMessage maxRetries (⟨0, 0, 0⟩ : FakeSt)
          (Ev.listRuns :: pollEvents 0 psc.pend)) := by
  have hinit : (initSt cfg).priorLeft = psc.pend := by
    simp [initSt, hprior]
  have hdrain := pollRun_prior cfg psc hprior h1 h2 psc.pend pf (initSt cfg)
    [Ev.listRuns] hfuel hinit
  have hstat : statusOf psc.pend psc.final = "in_progress" := by
    unfold statusOf
    rw [if_neg (by omega)]
  have hlr : (fakeClient cfg).listRuns (initSt cfg) =
      (some (scriptInfo 0 psc psc.pend), initSt cfg) := by
    simp only [fakeClient]
    rw [hprior, hinit]
    rfl
  have hstat2 : (scriptInfo 0 psc psc.pend).status = "in_progress" := hstat
  have hstat0 : (scriptInfo 0 psc 0).status = psc.final := by
    show statusOf 0 psc.final = psc.final
    unfold statusOf
    rw [if_pos rfl]
  unfold ask
  rw [hlr]
  dsimp only
  rw [if_pos (Or.inr hstat2), hdrain]
  dsimp only
  rw [hstat0]
  rfl

/-- C1: against any fake remote client with no pending prior run whose
runs fail with the transient code "server_error" on the first
`maxRetries - 1` attempts and complete on the last, `ask` returns the
reply extracted from the remote message list and its trace contains
exactly `maxRetries` run starts; against any such client whose runs
always fail transiently, `ask` raises the run failure
(`RemoteServiceError`) after exactly `maxRetries` run starts. -/
theorem ask_retry_bound (pf maxRetries : Nat) (userMessage : String)
    (hmax : 1 ≤ maxRetries) :
    (∀ cfg : FakeCfg, cfg.prior = none →
      (∀ i, 1 ≤ i → i ≤ maxRetries → (cfg.runs i).pend ≤ pf) →
      (∀ i, 1 ≤ i → i < maxRetries →
        (cfg.runs i).final = "failed" ∧ (cfg.runs i).errCode = "server_error") →
      (cfg.runs maxRetries).final = "completed" →
      ∃ s2 tr2, ask (fakeClient cfg) pf userMessage maxRetries (initSt cfg) =
          some (.ok (extractReply cfg.msgs), s2, tr2) ∧
        tr2.count Ev.createRun = maxRetries) ∧
    (∀ cfg : FakeCfg, cfg.prior = none →
      (∀ i, 1 ≤ i → i ≤ maxRetries → (cfg.runs i).pend ≤ pf) →
      (∀ i, 1 ≤ i → i ≤ maxRetries →
        (cfg.runs i).final = "failed" ∧ (cfg.runs i).errCode = "server_error") →
      ∃ s2 tr2, ask (fakeClient cfg) pf userMessage maxRetries (initSt cfg) =
          some (.error (.runFailed "server_error" (cfg.runs maxRetries).errMsg),
            s2, tr2) ∧
        tr2.count Ev.createRun = maxRetries) := by
  constructor
  · intro cfg hprior hfuel hfail hdone
    obtain ⟨s2, tr2, hrun, hcount⟩ := runLoop_transient_then_complete cfg pf
      maxRetries hfuel hfail hdone maxRetries 1 (initSt cfg)
      [Ev.listRuns, Ev.createMessage "user" userMessage] (by omega) hmax
      (by omega) rfl
    refine ⟨s2, tr2 ++ [Ev.listMessages],
      ask_no_prior_ok cfg pf maxRetries userMessage hprior s2 tr2 hrun, ?_⟩
    rw [List.count_append, hcount]
    have h0 : ([Ev.listRuns, Ev.createMessage "user" userMessage] :
        List Ev).count Ev.createRun = 0 := rfl
    have h1 : ([Ev.listMessages] : List Ev).count Ev.createRun = 0 := rfl
    rw [h0, h1]
    omega
  · intro cfg hprior hfuel hfail
    obtain ⟨s2, tr2, hrun, hcount⟩ := runLoop_always_transient cfg pf maxRetries
      hfuel hfail maxRetries 1 (initSt cfg)
      [Ev.listRuns, Ev.createMessage "user" userMessage] (by omega) hmax
      (by omega) rfl
    refine ⟨s2, tr2,
      ask_no_prior_error cfg pf maxRetries userMessage hprior _ s2 tr2 hrun, ?_⟩
    rw [hcount]
    have h0 : ([Ev.listRuns, Ev.createMessage "user" userMessage] :
        List Ev).count Ev.createRun = 0 := rfl
    rw [h0]
    omega

/-- Witness for C1: with `maxRetries = 3` and one-poll runs, the fake
that fails twice then completes yields the extracted reply after exactly
three run starts, and the always-failing fake raises after exactly three
run starts. -/
theorem ask_retry_bound_witness :
    (∃ s2 tr2, ask (fakeClient cfgRetryOk) 2 "hello" 3 (initSt cfgRetryOk) =
        some (.ok (extractReply cfgRetryOk.msgs), s2, tr2) ∧
      tr2.count Ev.createRun = 3) ∧
    (∃ s2 tr2, ask (fakeClient cfgRetryFail) 2 "hello" 3 (initSt cfgRetryFail) =
        some (.error (.runFailed "server_error" (cfgRetryFail.runs 3).errMsg),
          s2, tr2) ∧
      tr2.count Ev.createRun = 3) := by
  constructor
  · exact (ask_retry_bound 2 3 "hello" (by decide)).1 cfgRetryOk rfl
      (fun i hi1 hi2 => by interval_cases i <;> decide)
      (fun i hi1 hi2 => by interval_cases i <;> exact ⟨rfl, rfl⟩)
      rfl
  · exact (ask_retry_bound 2 3 "hello" (by decide)).2 cfgRetryFail rfl
      (fun i _ _ => (by decide : failScript.pend ≤ 2))
      (fun i _ _ => ⟨rfl, rfl⟩)

/-- C2: when the latest run on the thread is still pending when `ask` is
called (a prior run with `p ≥ 1` polls outstanding), every trace of a
completed `ask` call starts with the full drain of that prior run — one
listing followed by its polls — so the new user message is never posted
before the prior run reached a terminal status; and when that prior run
terminates as "failed", `ask` raises `RemoteServiceError` with a trace
containing no message post and no run start at all. -/
theorem ask_drains_before_send (pf maxRetries : Nat) (userMessage : String)
    (cfg : FakeCfg) (psc : RunScript)
    (hprior : cfg.prior = some psc) (hp : 1 ≤ psc.pend) (hfuel : psc.pend ≤ pf)
    (h1 : ¬ psc.final = "queued") (h2 : ¬ psc.final = "in_progress") :
    (∀ res s2 tr2,
      ask (fakeClient cfg) pf userMessage maxRetries (initSt cfg) =
        some (res, s2, tr2) →
      ∃ rest, tr2 = Ev.listRuns :: (pollEvents 0 psc.pend ++ rest) ∧
        ∀ role content, Ev.createMessage role content ∉
          Ev.listRuns :: pollEvents 0 psc.pend) ∧
    (psc.final = "failed" →
      ask (fakeClient cfg) pf userMessage maxRetries (initSt cfg) =
        some (.error (.prevRunFailed psc.errCode psc.errMsg),
          (⟨0, 0, 0⟩ : FakeSt), Ev.listRuns :: pollEvents 0 psc.pend) ∧
      (∀ role content, Ev.createMessage role content ∉
        Ev.listRuns :: pollEvents 0 psc.pend) ∧
      Ev.createRun ∉ Ev.listRuns :: pollEvents 0 psc.pend) := by
  have hnomsg : ∀ role content, Ev.createMessage role content ∉
      Ev.listRuns :: pollEvents 0 psc.pend := by
    intro role content hmem
    rcases List.mem_cons.mp hmem with heq | hmem2
    · cases heq
    · rcases pollEvents_mem 0 psc.pend _ hmem2 with heq | heq <;> cases heq
  have hnorun : Ev.createRun ∉ Ev.listRuns :: pollEvents 0 psc.pend := by
    intro hmem
    rcases List.mem_cons.mp hmem with heq | hmem2
    · cases heq
    · rcases pollEvents_mem 0 psc.pend _ hmem2 with heq | heq <;> cases heq
  have hask := ask_with_prior cfg pf maxRetries userMessage psc hprior hp hfuel h1 h2
  constructor
  · intro res s2 tr2 h
    rw [hask] at h
    by_cases hf : psc.final = "failed"
    · rw [if_pos hf] at h
      cases h
      exact ⟨[], by simp, hnomsg⟩
    · rw [if_neg hf] at h
      obtain ⟨ext, hext⟩ := askMain_extends _ _ _ _ _ _ _ _ _ h
      refine ⟨ext, ?_, hnomsg⟩
      rw [hext]
      simp
  · intro hf
    rw [hask, if_pos hf]
    exact ⟨rfl, hnomsg, hnorun⟩

/-- Witness for C2: a prior run that needs one poll and then reports
"failed"; `ask` drains it, raises, and neither posts the message nor
starts a run. -/
theorem ask_drains_before_send_witness :
    ask (fakeClient cfgPriorFailed) 2 "hello" 3 (initSt cfgPriorFailed) =
      some (.error (.prevRunFailed "server_error" "prior blew up"),
        (⟨0, 0, 0⟩ : FakeSt), Ev.listRuns :: pollEvents 0 1) ∧
    (∀ role content, Ev.createMessage role content ∉
      Ev.listRuns :: pollEvents 0 1) ∧
    Ev.createRun ∉ Ev.listRuns :: pollEvents 0 1 :=
  (ask_drains_before_send 2 3 "hello" cfgPriorFailed
    ⟨1, "failed", "server_error", "prior blew up"⟩ rfl (by decide) (by decide)
    (by decide) (by decide)).2 rfl

/-- C7: when the (first) run completes, `ask` fetches the thread's
message list and returns `extractReply` of it without raising; on a list
with no assistant-role message this is the empty string, and on a list
whose most recent (first, the list being newest-first) assistant message
has a text part it is that message's text. -/
theorem ask_completed_reply (pf maxRetries : Nat) (userMessage : String)
    (cfg : FakeCfg) (sc : RunScript)
    (hprior : cfg.prior = none) (hsc : cfg.runs 1 = sc)
    (hdone : sc.final = "completed") (hfuel : sc.pend ≤ pf)
    (hmax : 1 ≤ maxRetries) :
    (∃ s2 tr2, ask (fakeClient cfg) pf userMessage maxRetries (initSt cfg) =
        some (.ok (extractReply cfg.msgs), s2, tr2)) ∧
    ((∀ m ∈ cfg.msgs, ¬ m.role = "assistant") → extractReply cfg.msgs = "") ∧
    (∀ pre (m : RemoteMsg) post p, cfg.msgs = pre ++ m :: post →
      (∀ m2 ∈ pre, ¬ m2.role = "assistant") → m.role = "assistant" →
      (m.content.filter (fun q => q.type = "text")).head? = some p →
      extractReply cfg.msgs = p.text) := by
  refine ⟨?_, extractReply_no_assistant cfg.msgs, ?_⟩
  · obtain ⟨mr, rfl⟩ : ∃ mr, maxRetries = mr + 1 := ⟨maxRetries - 1, by omega⟩
    have hstep := runLoop_step cfg pf (mr + 1) mr 1 (initSt cfg)
      [Ev.listRuns, Ev.createMessage "user" userMessage] sc hsc hfuel
      (by rw [hdone]; decide) (by rw [hdone]; decide)
    rw [if_pos hdone] at hstep
    exact ⟨_, _, ask_no_prior_ok cfg pf (mr + 1) userMessage hprior _ _ hstep⟩
  · intro pre m post p hmsgs hpre hrole hhead
    rw [hmsgs]
    exact extractReply_first_assistant pre m post p hpre hrole hhead

/-- Witness for C7: a fake whose run completes and whose newest message
is an assistant text "hi there"; `ask` returns it. -/
theorem ask_completed_reply_witness :
    ∃ s2 tr2, ask (fakeClient cfgCompleted) 2 "hello" 3 (initSt cfgCompleted) =
      some (.ok "hi there", s2, tr2) := by
  obtain ⟨s2, tr2, h⟩ := (ask_completed_reply 2 3 "hello" cfgCompleted
    doneScript rfl rfl rfl (by decide) (by decide)).1
  refine ⟨s2, tr2, ?_⟩
  rw [h]
  rfl

/-- C10: when every run ends in a terminal status other than "completed"
and "failed" (for example "cancelled"), the retry loop neither breaks
with success nor raises: each attempt starts a fresh run with no backoff
sleep (every sleep in the trace is a one-second poll sleep), all
`maxRetries` attempts are consumed, and `ask` falls through to fetching
the message list and returns the extracted reply exactly as if the run
had completed. -/
theorem ask_other_terminal_fallthrough (pf maxRetries : Nat)
    (userMessage : String) (cfg : FakeCfg) (hprior : cfg.prior = none)
    (hfuel : ∀ i, 1 ≤ i → i ≤ maxRetries → (cfg.runs i).pend ≤ pf)
    (hother : ∀ i, 1 ≤ i → i ≤ maxRetries →
      ¬ (cfg.runs i).final = "queued" ∧ ¬ (cfg.runs i).final = "in_progress" ∧
      ¬ (cfg.runs i).final = "completed" ∧ ¬ (cfg.runs i).final = "failed") :
    ∃ s2 tr2, ask (fakeClient cfg) pf userMessage maxRetries (initSt cfg) =
        some (.ok (extractReply cfg.msgs), s2, tr2) ∧
      tr2.count Ev.createRun = maxRetries ∧
      ∀ n, Ev.sleep n ∈ tr2 → n = 1 := by
  obtain ⟨s2, tr2, hrun, hcount, hmem⟩ := runLoop_other_terminal cfg pf
    maxRetries hfuel hother maxRetries 1 (initSt cfg)
    [Ev.listRuns, Ev.createMessage "user" userMessage] (by omega) (by omega) rfl
  refine ⟨s2, tr2 ++ [Ev.listMessages],
    ask_no_prior_ok cfg pf maxRetries userMessage hprior s2 tr2 hrun, ?_, ?_⟩
  · rw [List.count_append, hcount]
    have h0 : ([Ev.listRuns, Ev.createMessage "user" userMessage] :
        List Ev).count Ev.createRun = 0 := rfl
    have h1 : ([Ev.listMessages] : List Ev).count Ev.createRun = 0 := rfl
    rw [h0, h1]
    omega
  · intro n hn
    rcases List.mem_append.mp hn with hn2 | hn2
    · rcases hmem _ hn2 with hin | hk
      · rcases List.mem_cons.mp hin with heq | hin3
        · cases heq
        · rcases List.mem_cons.mp hin3 with heq | hin4
          · cases heq
          · cases hin4
      · rcases hk with heq | heq | ⟨j, heq⟩
        · cases heq
        · cases heq
          rfl
        · cases heq
    · rcases List.mem_cons.mp hn2 with heq | hn3
      · cases heq
      · cases hn3

/-- Witness for C10: all runs cancelled instantly; `ask` with three
retries starts three runs, never backs off, and returns the extracted
reply. -/
theorem ask_other_terminal_fallthrough_witness :
    ∃ s2 tr2, ask (fakeClient cfgCancelled) 2 "hello" 3 (initSt cfgCancelled) =
        some (.ok (extractReply cfgCancelled.msgs), s2, tr2) ∧
      tr2.count Ev.createRun = 3 ∧
      ∀ n, Ev.sleep n ∈ tr2 → n = 1 :=
  ask_other_terminal_fallthrough 2 3 "hello" cfgCancelled rfl
    (fun i _ _ => (by decide : cancelScript.pend ≤ 2))
    (fun i _ _ => ⟨(by decide : ¬ cancelScript.final = "queued"),
      (by decide : ¬ cancelScript.final = "in_progress"),
      (by decide : ¬ cancelScript.final = "completed"),
      (by decide : ¬ cancelScript.final = "failed")⟩)

end SmartTgBot
